import Mathlib

/-!
Verification of the CareerIntelligenceEngine
(`career_api_backend_v2/career_api/app/core/engine.py`).

Shallow embedding: Python floats are modelled as `Option ℚ` (`none` stands
for a non-finite value, i.e. NaN or ±Inf); finite float arithmetic is exact
rational arithmetic.  Pandas/NumPy row collections become Lean lists aligned
with the fixed `SKILL_COLS` ordering.  Opaque trained artifacts (sentence
encoder, TF-IDF vectorizer, GBM ranker) are parameters of the embedded
functions: the embedding receives their numeric outputs as inputs.
-/

namespace CareerEngine

/-- Model of a Python float that may be NaN or infinite: `none` is any
non-finite value, `some q` a finite value. -/
abbrev PyFloat := Option ℚ

/-- Python `round` rounds half to even. `roundHalfEven x` is the integer
nearest to `x`, ties going to the even integer. -/
def roundHalfEven (x : ℚ) : ℤ :=
  let f := ⌊x⌋
  let r := x - (f : ℚ)
  if r < 1/2 then f
  else if (1:ℚ)/2 < r then f + 1
  else if f % 2 = 0 then f else f + 1

/-- Python `round(x, d)` on an exact rational. -/
def pyRound (d : ℕ) (x : ℚ) : ℚ := (roundHalfEven (x * (10:ℚ) ^ d) : ℚ) / (10:ℚ) ^ d

/-- `CareerIntelligenceEngine._safe_float` (engine.py lines 454-461): a
non-finite or unparseable value becomes the default. -/
def safe_float (v : PyFloat) (dflt : ℚ) : ℚ := v.getD dflt

/-- Python `min(a, b)`: `a` when `a <= b`, else `b`. -/
def pymin (a b : ℚ) : ℚ := if a ≤ b then a else b

/-- Python `max(a, b)`: `b` when `a <= b`, else `a`. -/
def pymax (a b : ℚ) : ℚ := if a ≤ b then b else a

/-! ## Generic list and string helpers

`sortDesc` is a stable descending insertion sort: Python's `list.sort(...,
reverse=True)` is stable descending, and NumPy's `argsort` followed by
`[::-1]` is descending by value (tie order among equal values is not
specified by NumPy's default quicksort; the stable order is one admissible
choice, and no claim below depends on tie order). -/

/-- Stable descending insert: `x` (originally leftmost) goes before every
element whose key is not greater than its own. -/
def insertDesc (key : α → ℚ) (x : α) : List α → List α
  | [] => [x]
  | y :: ys => if key y ≤ key x then x :: y :: ys else y :: insertDesc key x ys

/-- Stable descending insertion sort by a rational key. -/
def sortDesc (key : α → ℚ) : List α → List α
  | [] => []
  | x :: xs => insertDesc key x (sortDesc key xs)

/-- `np.argsort(v)[::-1]`: indices of `v` in descending order of value. -/
def argsortDesc (v : List ℚ) : List ℕ :=
  sortDesc (fun i => v.getD i 0) (List.range v.length)

/-- Whether the character list `n` is a leading segment of `h`. -/
def listStartsWith : List Char → List Char → Bool
  | _, [] => true
  | [], _ :: _ => false
  | a :: as, b :: bs => a = b && listStartsWith as bs

/-- Whether `n` occurs contiguously inside `h`. -/
def listHasSub : List Char → List Char → Bool
  | [], n => n.isEmpty
  | h :: t, n => listStartsWith (h :: t) n || listHasSub t n

/-- Python `needle in hay` on strings: contiguous substring test. -/
def strHasSub (hay needle : String) : Bool := listHasSub hay.toList needle.toList

/-- Split a character list at spaces. -/
def splitOnSpaces (cs : List Char) : List (List Char) :=
  cs.foldr
    (fun c acc =>
      match acc with
      | [] => if c = ' ' then [[], []] else [[c]]
      | w :: ws => if c = ' ' then [] :: w :: ws else (c :: w) :: ws)
    [[]]

/-- Python `str.split()` with no argument: split on whitespace, dropping
empty pieces (modelled for space-separated text). -/
def pySplitWS (s : String) : List String :=
  ((splitOnSpaces s.toList).filter (fun w => ¬ w.isEmpty)).map String.mk

/-- Python `str.lower()`. -/
def pyLower (s : String) : String := String.mk (s.toList.map Char.toLower)

/-- Replace every non-overlapping occurrence of `pat` (leftmost first). -/
def replaceList (pat rep : List Char) : List Char → List Char
  | [] => []
  | h :: t =>
      if pat.isEmpty then h :: t
      else if listStartsWith (h :: t) pat then
        rep ++ replaceList pat rep (t.drop (pat.length - 1))
      else h :: replaceList pat rep t
termination_by l => l.length
decreasing_by
  · simp only [List.length_cons, List.length_drop]
    omega
  · simp only [List.length_cons]
    omega

/-- Python `str.replace(pat, rep)` (all occurrences). -/
def pyReplace (s pat rep : String) : String :=
  String.mk (replaceList pat.toList rep.toList s.toList)

/-- Python string slicing `s[:n]` (by character count). -/
def pyTake (s : String) (n : ℕ) : String := String.mk (s.toList.take n)

/-- Minimum of a rational list, `none` when empty (pandas `Series.min`
skips NaN, so it is applied to the finite values only). -/
def listMinQ (l : List ℚ) : Option ℚ :=
  l.foldl (fun acc x => match acc with | none => some x | some m => some (pymin m x)) none

/-- Maximum of a rational list, `none` when empty. -/
def listMaxQ (l : List ℚ) : Option ℚ :=
  l.foldl (fun acc x => match acc with | none => some x | some m => some (pymax m x)) none

/-- Python `x or d` for an optional float `x` followed by `float(...)`:
`None` and `0.0` are falsy and give the default; a non-finite value is
truthy and kept (as `none`, i.e. still non-finite). -/
def pyOrFloat (x : Option PyFloat) (d : ℚ) : PyFloat :=
  match x with
  | none => some d
  | some none => none
  | some (some q) => if q = 0 then some d else some q

/-- Python `str.title()`: first letter of every alphabetic run uppercased,
the rest lowercased. -/
def titleGo : Bool → List Char → List Char
  | _, [] => []
  | prevAlpha, c :: cs =>
      (if c.isAlpha then (if prevAlpha then c.toLower else c.toUpper) else c)
        :: titleGo c.isAlpha cs

/-- Python `str.title()`. -/
def pyTitle (s : String) : String := String.mk (titleGo false s.toList)

/-! ## Skill vectorizer (`parse_user_skills`, engine.py lines 356-397) -/

/-- Rank weights of the semantic top-3 loop:
`1.0 if rank == 0 else (0.6 if rank == 1 else 0.3)`. -/
def rankWeight : ℕ → ℚ
  | 0 => 1
  | 1 => 3/5
  | _ => 3/10

/-- One phrase of the semantic branch: `top3 = np.argsort(sim_row)[::-1][:3]`,
then for each `(rank, dim_idx)` in `enumerate(top3)`,
`dim_scores[col] = min(7.0, dim_scores[col] + sim * weight * 7.0)`.
`scores` is the `dim_scores` dict as a list aligned with `SKILL_COLS`. -/
def applyPhraseSemantic (scores : List ℚ) (simRow : List ℚ) : List ℚ :=
  (((argsortDesc simRow).take 3).enum).foldl
    (fun sc p =>
      sc.set p.2 (pymin 7 (sc.getD p.2 0 + simRow.getD p.2 0 * rankWeight p.1 * 7)))
    scores

/-- The semantic branch of `parse_user_skills`: `simRows` is the cosine
similarity matrix between the encoded phrases (rows) and the skill-dimension
reference vectors (columns); `nDims = len(SKILL_COLS)`. -/
def parse_user_skills_semantic (nDims : ℕ) (simRows : List (List ℚ)) : List ℚ :=
  simRows.foldl applyPhraseSemantic (List.replicate nDims 0)

/-- The keyword condition of the fallback branch:
`skill in desc or any(w in desc for w in skill.split())`. -/
def fallbackCond (skill desc : String) : Bool :=
  strHasSub desc skill || (pySplitWS skill).any (fun w => strHasSub desc w)

/-- One explicit skill of the fallback branch: for every
`(col, desc) in CANONICAL_SKILLS.items()` with `col` a known dimension and
the keyword condition true, `dim_scores[col] = min(7.0, dim_scores[col] + 2.5)`. -/
def applySkillFallback (canonicalSkills : List (String × String)) (cols : List String)
    (scores : List ℚ) (skill : String) : List ℚ :=
  canonicalSkills.foldl
    (fun sc p =>
      match cols.findIdx? (fun c => c = p.1) with
      | some i => if fallbackCond skill p.2 then sc.set i (pymin 7 (sc.getD i 0 + 5/2)) else sc
      | none => sc)
    scores

/-- The keyword-fallback branch of `parse_user_skills`. -/
def parse_user_skills_fallback (canonicalSkills : List (String × String)) (cols : List String)
    (explicit : List String) : List ℚ :=
  explicit.foldl (applySkillFallback canonicalSkills cols) (List.replicate cols.length 0)

/-- `parse_user_skills` after phrase extraction (engine.py lines 374-397):
semantic branch when the encoder, the reference vectors and a non-empty
phrase list are all available (`simRows = some rows`, one similarity row per
phrase), otherwise the keyword fallback; empty result when no skill columns
are configured. Returns the `dim_scores` values aligned with `cols`. -/
def parse_user_skills (cols : List String) (canonicalSkills : List (String × String))
    (simRows : Option (List (List ℚ))) (explicit : List String) : List ℚ :=
  if cols.isEmpty then [] else
  match simRows with
  | some rows => parse_user_skills_semantic cols.length rows
  | none => parse_user_skills_fallback canonicalSkills cols explicit

/-! ## Match percentage (`_format_recommendations`, engine.py lines 479-497) -/

/-- The min-max setup of `_format_recommendations`:
`s_min = _safe_float(scores.min(), 0.0)`, `s_max = _safe_float(scores.max(), 1.0)`,
`score_range = s_max - s_min if s_max > s_min else 1.0`.
Pandas `min`/`max` skip NaN, hence are taken over the finite entries; on an
empty column this yields `(0, 1)` exactly as the source's
`else: s_min, score_range = 0.0, 1.0` branch does. -/
def scoreRangeSetup (scores : List PyFloat) : ℚ × ℚ :=
  let fin := scores.filterMap id
  let sMin := safe_float (listMinQ fin) 0
  let sMax := safe_float (listMaxQ fin) 1
  (sMin, if sMin < sMax then sMax - sMin else 1)

/-- One row's `Match Score (%)`: with `raw = _safe_float(row["_score"], 0.5)`,
`round(55 + (raw - s_min) / score_range * 43, 1)` when `score_range > 0`,
else `70.0`. -/
def matchPct (sMin scoreRange : ℚ) (score : PyFloat) : ℚ :=
  let raw := safe_float score (1/2)
  if 0 < scoreRange then pyRound 1 (55 + (raw - sMin) / scoreRange * 43) else 70

/-- The `Match Score (%)` column produced by `_format_recommendations` for a
group of final `_score` values. -/
def format_match_pcts (scores : List PyFloat) : List ℚ :=
  let p := scoreRangeSetup scores
  scores.map (matchPct p.1 p.2)

/-! ## Gap analyzer (`analyse_skills_gap`, engine.py lines 516-578) -/

/-- One entry of `gap_details`; numeric fields carry the same rounding as
the source (`required`, `current`, `gap` to 2 places, `importance`,
`weighted_gap` to 4 places). -/
structure GapEntry where
  dimension : String
  col : String
  required : ℚ
  current : ℚ
  gap : ℚ
  importance : ℚ
  weightedGap : ℚ
deriving DecidableEq

/-- The dictionary returned by `analyse_skills_gap`. -/
structure GapReport where
  occupation : String
  alignmentPct : ℚ
  topGaps : List GapEntry
  topStrengths : List GapEntry
  totalDims : ℕ
deriving DecidableEq

/-- `float(occupation_row.get(c, 0) or 0)` guarded by `np.isfinite` /
`except (TypeError, ValueError)`: a missing, non-numeric, falsy or
non-finite entry reads as 0. -/
def reqValue (x : PyFloat) : ℚ := x.getD 0

/-- `imp_total = sum(raw_scores) or 1.0`. -/
def imp_total (cols : List String) (occRow : List PyFloat) : ℚ :=
  let rawScores := (List.range cols.length).map (fun i => reqValue (occRow.getD i none))
  if rawScores.sum = 0 then 1 else rawScores.sum

/-- `importance[col] = raw / imp_total` (always finite over ℚ). -/
def importance_of (cols : List String) (occRow : List PyFloat) (i : ℕ) : ℚ :=
  reqValue (occRow.getD i none) / imp_total cols occRow

/-- One `gap_details` entry (engine.py lines 536-555). -/
def gap_entry (cols : List String) (occRow userScores : List PyFloat) (i : ℕ) : GapEntry :=
  let required := reqValue (occRow.getD i none)
  let current := safe_float (userScores.getD i none) 0
  let gap := pymax 0 (required - current)
  let imp := importance_of cols occRow i
  { dimension := pyTitle (pyReplace (pyReplace (cols.getD i "") "skill_" "") "_" " ")
    col := cols.getD i ""
    required := pyRound 2 required
    current := pyRound 2 current
    gap := pyRound 2 gap
    importance := pyRound 4 imp
    weightedGap := pyRound 4 (gap * imp) }

/-- The `gap_details` list, one entry per skill column. -/
def gap_details (cols : List String) (occRow userScores : List PyFloat) : List GapEntry :=
  (List.range cols.length).map (gap_entry cols occRow userScores)

/-- `max_gap = sum(r * importance[c])` over the skill columns. -/
def max_gap (cols : List String) (occRow : List PyFloat) : ℚ :=
  ((List.range cols.length).map
    (fun i => reqValue (occRow.getD i none) * importance_of cols occRow i)).sum

/-- `analyse_skills_gap` (engine.py lines 516-578): `cols` is `SKILL_COLS`;
`occRow` the occupation row's skill values and `userScores` the user's
scores, both aligned with `cols` (`none` = missing or non-finite). -/
def analyse_skills_gap (cols : List String) (occRow userScores : List PyFloat)
    (occName : String) (topNGaps topNStrong : ℕ) : GapReport :=
  let sorted := sortDesc (fun g => g.weightedGap) (gap_details cols occRow userScores)
  let topGaps := (sorted.filter (fun g => decide (0 < g.gap))).take topNGaps
  let topStrong := (sortDesc (fun g => g.current)
      (sorted.filter (fun g => decide (g.required ≤ g.current) && decide (0 < g.required)))).take
      topNStrong
  let actualGap := (sorted.map (fun g => g.weightedGap)).sum
  let alignment :=
    pyRound 1 ((1 - actualGap / pymax (max_gap cols occRow) (1/1000000)) * 100)
  { occupation := occName
    alignmentPct := pymax 0 (pymin 100 alignment)
    topGaps := topGaps
    topStrengths := topStrong
    totalDims := cols.length }

/-! ## Career ranker final score (`recommend_careers`, engine.py lines 423-451) -/

/-- The combined score before re-ranking: `_cosine_sim + _goal_boost` when
`career_goals` and the boost table are both non-empty, else `_cosine_sim`
alone. -/
def combined_scores (cosineSims goalBoosts : List ℚ) (useGoal : Bool) : List ℚ :=
  if useGoal then cosineSims.zipWith (fun c b => c + b) goalBoosts else cosineSims

/-- The optional re-ranking blend (engine.py lines 442-449): when both the
ranker and the scaler are loaded, the positive-class probabilities `probs`
(computed on scaler-transformed features) blend as
`0.6 * score + 0.4 * prob`; if computing them raises (`probs = .error`),
the `except Exception: pass` keeps the un-blended scores; when either
artifact is missing the branch is skipped entirely. -/
def apply_ranker_blend (scores : List ℚ) (rankerLoaded scalerLoaded : Bool)
    (probs : Except Unit (List ℚ)) : List ℚ :=
  if rankerLoaded && scalerLoaded then
    match probs with
    | .ok ps => scores.zipWith (fun s p => 3/5 * s + 2/5 * p) ps
    | .error _ => scores
  else scores

/-- Final `_score` column of `recommend_careers` in the similarity path. -/
def final_scores (cosineSims goalBoosts : List ℚ) (useGoal : Bool)
    (rankerLoaded scalerLoaded : Bool) (probs : Except Unit (List ℚ)) : List ℚ :=
  apply_ranker_blend (combined_scores cosineSims goalBoosts useGoal)
    rankerLoaded scalerLoaded probs

/-! ## Course matcher (`search_courses_for_skill`, engine.py lines 580-614) -/

/-- A row of the unified course catalogue. `stdLevel = none` models a
missing level (`fillna("")` applies); `quality = none` a NaN quality score;
`durationHours = none` a missing duration. -/
structure Course where
  title : String
  platform : String
  stdLevel : Option String
  subject : String
  skillsCovered : String
  quality : PyFloat
  durationHours : Option ℚ
  isFree : Bool
  url : String
deriving DecidableEq

instance : Inhabited Course := ⟨⟨"", "", none, "", "", none, none, false, ""⟩⟩

/-- One result dictionary of `search_courses_for_skill`. -/
structure CourseResult where
  courseTitle : String
  platform : String
  level : String
  subject : String
  skillsCovered : String
  qualityScore : PyFloat
  durationHours : Option ℚ
  isFree : Bool
  url : String
  skillMatchPct : ℚ
  skillGap : String
deriving DecidableEq

/-- Eligibility mask row (engine.py lines 590-593):
`courses["quality_score"].fillna(0) >= min_quality` and, when a level
filter is given, `courses[std_col].fillna("") == level_filter`. -/
def eligible (minQuality : ℚ) (levelFilter : Option String) (c : Course) : Bool :=
  decide (minQuality ≤ safe_float c.quality 0) &&
    match levelFilter with
    | some lf => decide (c.stdLevel.getD "" = lf)
    | none => true

/-- `masked = sims * mask.astype(float)`: ineligible courses get similarity
0 while keeping their index position. -/
def masked_sims (sims : List ℚ) (mask : List Bool) : List ℚ :=
  sims.zipWith (fun s m => if m then s else 0) mask

/-- `top_idx = [i for i in np.argsort(masked)[::-1] if masked[i] > 0.01][:top_k]`. -/
def select_top_idx (masked : List ℚ) (topK : ℕ) : List ℕ :=
  ((argsortDesc masked).filter (fun i => decide ((1:ℚ)/100 < masked.getD i 0))).take topK

/-- The query text: `skill_name.lower().replace("_", " ")`. -/
def courseQuery (skillName : String) : String := pyReplace (pyLower skillName) "_" " "

/-- One result row of `search_courses_for_skill` (engine.py lines 599-613).
`quality_score` is `round(float(row.get("quality_score", 0) or 0), 2)`: a
NaN quality stays NaN here (it is only sanitised at pipeline level). -/
def mkCourseResult (skillName : String) (courses : List Course) (masked : List ℚ)
    (idx : ℕ) : CourseResult :=
  let row := courses.getD idx default
  { courseTitle := row.title
    platform := row.platform
    level := row.stdLevel.getD "Unknown"
    subject := row.subject
    skillsCovered := pyTake row.skillsCovered 120
    qualityScore := (pyOrFloat (some row.quality) 0).map (pyRound 2)
    durationHours := row.durationHours
    isFree := row.isFree
    url := row.url
    skillMatchPct := pyRound 1 (masked.getD idx 0 * 100)
    skillGap := pyTitle (pyReplace skillName "_" " ") }

/-- `search_courses_for_skill` (engine.py lines 580-614). The fitted TF-IDF
vectorizer and the course matrix are opaque artifacts: `computeSims tf mat q`
stands for `cosine_similarity(tfidf.transform([q]), course_matrix)[0]`.
When any of the vectorizer, the matrix or the catalogue is not loaded the
function returns `[]` (lines 583-584). -/
def search_courses_for_skill {A B : Type} (courseTfidf : Option A) (courseMatrix : Option B)
    (courses : Option (List Course)) (computeSims : A → B → String → List ℚ)
    (skillName : String) (topK : ℕ) (levelFilter : Option String) (minQuality : ℚ) :
    List CourseResult :=
  match courseTfidf, courseMatrix, courses with
  | some tf, some mat, some cs =>
      let sims := computeSims tf mat (courseQuery skillName)
      let mask := cs.map (eligible minQuality levelFilter)
      let masked := masked_sims sims mask
      (select_top_idx masked topK).map (mkCourseResult skillName cs masked)
  | _, _, _ => []

/-! ## Learning path builder (`generate_learning_path`, engine.py lines 616-658) -/

/-- `EDUCATION_COURSE_LEVELS.get(user_type.lower(), ["Foundation", "Intermediate"])`. -/
def lookupEduLevels (eduMap : List (String × List String)) (userType : String) : List String :=
  ((eduMap.find? (fun p => p.1 = pyLower userType)).map (fun p => p.2)).getD
    ["Foundation", "Intermediate"]

/-- Python `l[start::step]` for a positive step: the elements at indices
`start, start + step, start + 2*step, ...`. -/
def sliceStride (l : List α) (start step : ℕ) : List α :=
  (l.enum.filter (fun p => decide (start ≤ p.1) && decide ((p.1 - start) % step = 0))).map
    (fun p => p.2)

/-- `stage_gaps = top_gaps[stage_idx - 1 :: len(edu_levels)]` for the
0-based stage index `j = stage_idx - 1`. Note the stride is the length of
the full configured level list, not of its 3-capped slice. -/
def stageGapsOf (eduLevels : List String) (topGaps : List GapEntry) (j : ℕ) : List GapEntry :=
  sliceStride topGaps j eduLevels.length

/-- One stage of the learning path. -/
structure PathStage where
  stage : ℕ
  level : String
  title : String
  courses : List CourseResult
  hoursEst : ℚ
deriving DecidableEq

/-- The dictionary returned by `generate_learning_path`. -/
structure LearningPath where
  stages : List PathStage
  totalHours : ℚ
  userType : String
deriving DecidableEq

/-- Deduplicate stage courses by title, first occurrence winning. -/
def dedupByTitle (cs : List CourseResult) : List CourseResult :=
  cs.foldl
    (fun acc c => if acc.any (fun d => d.courseTitle = c.courseTitle) then acc else acc ++ [c])
    []

/-- `float(c.get("duration_hours") or 20)`: a missing (`None`) or zero
duration counts as 20 hours. -/
def hoursOf (d : Option ℚ) : ℚ :=
  match d with
  | none => 20
  | some q => if q = 0 then 20 else q

/-- One stage of `generate_learning_path` together with its raw (unrounded)
hours: gap slice, per-gap course search with unfiltered retry, title
deduplication, hour estimate. `p` is `(stage_idx - 1, level)`. -/
def buildStage (eduLevels : List String)
    (search : String → ℕ → Option String → List CourseResult)
    (topGaps : List GapEntry) (coursesPerGap : ℕ) (p : ℕ × String) : PathStage × ℚ :=
  let stageIdx := p.1 + 1
  let stageGaps := stageGapsOf eduLevels topGaps p.1
  let stageCourses := (stageGaps.take 4).flatMap (fun g =>
    let cs := search g.col coursesPerGap (some p.2)
    if cs.isEmpty then search g.col coursesPerGap none else cs)
  let uniqueCourses := dedupByTitle stageCourses
  let hrs := (uniqueCourses.map (fun c => hoursOf c.durationHours)).sum
  ({ stage := stageIdx
     level := p.2
     title := "Stage " ++ toString stageIdx ++ ": " ++ p.2
     courses := uniqueCourses
     hoursEst := pyRound 0 hrs }, hrs)

/-- `generate_learning_path` (engine.py lines 616-658). `search` stands for
`self.search_courses_for_skill` already specialized to the loaded course
artifacts; `gapReportTopGaps` is `gap_report.get("top_gaps", [])`. -/
def generate_learning_path (eduMap : List (String × List String))
    (search : String → ℕ → Option String → List CourseResult)
    (gapReportTopGaps : List GapEntry) (userType : String) (coursesPerGap : ℕ) :
    LearningPath :=
  let eduLevels := lookupEduLevels eduMap userType
  let built := ((eduLevels.take 3).enum).map
    (buildStage eduLevels search gapReportTopGaps coursesPerGap)
  { stages := built.map (fun b => b.1)
    totalHours := pyRound 0 ((built.map (fun b => b.2)).sum)
    userType := userType }

/-! ## Occupation lookup in `run_full_pipeline` (engine.py lines 701-708) -/

/-- `career_title.split()[0]` guarded: the first whitespace word, if any. -/
def firstWord (s : String) : Option String := (pySplitWS s).head?

/-- `self.master[self.master["occupation"].str.lower() == career_title.lower()]`:
index of the first exact case-insensitive title match. -/
def exactMatchIdx (master : List String) (title : String) : Option ℕ :=
  master.findIdx? (fun occ => pyLower occ = pyLower title)

/-- `self.master["occupation"].str.contains(first_word, case=False, na=False)`:
index of the first case-insensitive containment match. -/
def fuzzyMatchIdx (master : List String) (w : String) : Option ℕ :=
  master.findIdx? (fun occ => strHasSub (pyLower occ) (pyLower w))

/-- The occupation lookup of the `run_full_pipeline` loop: exact
case-insensitive equality first, else case-insensitive containment of the
title's first word; `.error ()` marks the `IndexError` Python would raise
on `career_title.split()[0]` when the title has no words. -/
def lookupOccupation (master : List String) (title : String) : Except Unit (Option ℕ) :=
  match exactMatchIdx master title with
  | some i => .ok (some i)
  | none =>
      match firstWord title with
      | none => .error ()
      | some w => .ok (fuzzyMatchIdx master w)

/-- The `career_details` loop skeleton of `run_full_pipeline`: each
recommendation title is looked up; a title whose lookup finds no occupation
is skipped (`continue`), and a raising lookup aborts the loop. Returns the
master indices that contribute a `career_details` entry, in order. -/
def career_details_indices (master : List String) (recTitles : List String) :
    Except Unit (List ℕ) :=
  recTitles.foldl
    (fun acc t =>
      match acc, lookupOccupation master t with
      | .error e, _ => .error e
      | .ok _, .error e => .error e
      | .ok l, .ok none => .ok l
      | .ok l, .ok (some i) => .ok (l ++ [i]))
    (.ok [])

/-- The master index a recommendation title contributes, if any: `some i`
exactly when the lookup succeeds without raising. -/
def matchedIdx (master : List String) (s : String) : Option ℕ :=
  match lookupOccupation master s with
  | .ok (some i) => some i
  | _ => none

/-! ## Output sanitiser (`_sanitise`, engine.py lines 677-691, applied by
`run_full_pipeline` at line 750) -/

/-- A Python value as it appears in the pipeline result dictionary: floats
may be non-finite (`pfloat none`). -/
inductive PyVal where
  | pfloat (q : PyFloat)
  | pint (z : ℤ)
  | pstr (s : String)
  | pbool (b : Bool)
  | pnone
  | plist (l : List PyVal)
  | pdict (l : List (String × PyVal))

/-- `_sanitise`: recursively replace every NaN/Inf float by `0.0`, keeping
every other value unchanged. -/
def sanitise : PyVal → PyVal
  | .pdict l => .pdict (l.attach.map (fun x => (x.1.1, sanitise x.1.2)))
  | .plist l => .plist (l.attach.map (fun x => sanitise x.1))
  | .pfloat q => .pfloat (some (q.getD 0))
  | .pint z => .pint z
  | .pstr s => .pstr s
  | .pbool b => .pbool b
  | .pnone => .pnone
decreasing_by
  · obtain ⟨⟨k, v⟩, hm⟩ := x
    have h := List.sizeOf_lt_of_mem hm
    simp at h ⊢
    omega
  · obtain ⟨v, hm⟩ := x
    have h := List.sizeOf_lt_of_mem hm
    simp at h ⊢
    omega

/-- No non-finite float occurs anywhere in the nested value. -/
def allFiniteB : PyVal → Bool
  | .pfloat q => q.isSome
  | .plist l => l.attach.all (fun x => allFiniteB x.1)
  | .pdict l => l.attach.all (fun x => allFiniteB x.1.2)
  | _ => true
decreasing_by
  · obtain ⟨v, hm⟩ := x
    have h := List.sizeOf_lt_of_mem hm
    simp at h ⊢
    omega
  · obtain ⟨⟨k, v⟩, hm⟩ := x
    have h := List.sizeOf_lt_of_mem hm
    simp at h ⊢
    omega

/-- The last statement of `run_full_pipeline`:
`return self._sanitise(result)`; the assembled `result` value is arbitrary. -/
def run_full_pipeline_output (result : PyVal) : PyVal := sanitise result

/-! ## Risk categorizer (`categorise_risk`, engine.py lines 350-354)

The thresholds dictionary iterates in insertion order; a score `s`
matches the first `(label, lo, hi)` with `lo <= s < hi`; comparisons
against NaN are false in Python, so NaN matches no interval. -/

/-- Python `lo <= s` where `s` may be NaN (`none`): false on NaN. -/
def oleB (lo : ℚ) (s : PyFloat) : Bool :=
  match s with
  | some v => decide (lo ≤ v)
  | none => false

/-- Python `s < hi` where `s` may be NaN (`none`): false on NaN. -/
def oltB (s : PyFloat) (hi : ℚ) : Bool :=
  match s with
  | some v => decide (v < hi)
  | none => false

/-- The `for label, (lo, hi) in RISK_THRESHOLDS.items()` loop body of
`categorise_risk`: first interval containing the score wins. -/
def risk_first_match : List (String × ℚ × ℚ) → PyFloat → Option String
  | [], _ => none
  | (lbl, lo, hi) :: rest, s =>
      if oleB lo s && oltB s hi then some lbl else risk_first_match rest s

/-- `CareerIntelligenceEngine.categorise_risk` (engine.py lines 350-354),
parameterized by the loaded `RISK_THRESHOLDS`. -/
def categorise_risk (thresholds : List (String × ℚ × ℚ)) (score : PyFloat) : String :=
  (risk_first_match thresholds score).getD "Very High"

/-- The default `RISK_THRESHOLDS` set by `_set_default_risk_config`
(engine.py lines 277-282): 0.35 = 7/20, 0.55 = 11/20, 0.72 = 18/25. -/
def default_risk_thresholds : List (String × ℚ × ℚ) :=
  [("Low", 0, 7/20), ("Medium", 7/20, 11/20), ("High", 11/20, 18/25), ("Very High", 18/25, 1)]

/-- Position of a label in the ordered risk scale. -/
def risk_label_rank (l : String) : ℕ :=
  if l = "Low" then 0 else if l = "Medium" then 1 else if l = "High" then 2 else 3

theorem pymin_le_left (a b : ℚ) : pymin a b ≤ a := by
  unfold pymin; split
  · exact le_refl a
  · rename_i h; exact le_of_lt (lt_of_not_le h)

theorem pymin_le_right (a b : ℚ) : pymin a b ≤ b := by
  unfold pymin; split
  · assumption
  · exact le_refl b

theorem le_pymin (a b c : ℚ) (h1 : c ≤ a) (h2 : c ≤ b) : c ≤ pymin a b := by
  unfold pymin; split
  · exact h1
  · exact h2

theorem le_pymax_left (a b : ℚ) : a ≤ pymax a b := by
  unfold pymax; split
  · assumption
  · exact le_refl a

theorem le_pymax_right (a b : ℚ) : b ≤ pymax a b := by
  unfold pymax; split
  · exact le_refl b
  · rename_i h; exact le_of_lt (lt_of_not_le h)

theorem pymax_le (a b c : ℚ) (h1 : a ≤ c) (h2 : b ≤ c) : pymax a b ≤ c := by
  unfold pymax; split
  · exact h2
  · exact h1

theorem roundHalfEven_intCast (z : ℤ) : roundHalfEven (z : ℚ) = z := by
  unfold roundHalfEven
  have h0 : ⌊(z : ℚ)⌋ = z := Int.floor_intCast z
  rw [h0]
  simp

theorem pyRound_intCast (d : ℕ) (z : ℤ) : pyRound d ((z : ℚ) / (10:ℚ) ^ d) = (z : ℚ) / (10:ℚ) ^ d := by
  unfold pyRound
  have hpow : ((10:ℚ) ^ d) ≠ 0 := by positivity
  rw [div_mul_cancel₀ _ hpow, roundHalfEven_intCast]

theorem pyRound_zero (d : ℕ) : pyRound d 0 = 0 := by
  have := pyRound_intCast d 0
  simpa using this

theorem pyRound_hundred : pyRound 1 (100:ℚ) = 100 := by
  have := pyRound_intCast 1 1000
  norm_num at this
  simpa using this


theorem categorise_risk_default_eq (q : ℚ) :
    categorise_risk default_risk_thresholds (some q) =
      if 0 ≤ q ∧ q < 7/20 then "Low"
      else if 7/20 ≤ q ∧ q < 11/20 then "Medium"
      else if 11/20 ≤ q ∧ q < 18/25 then "High"
      else if 18/25 ≤ q ∧ q < 1 then "Very High"
      else "Very High" := by
  simp only [categorise_risk, default_risk_thresholds, risk_first_match, oleB, oltB,
    Bool.and_eq_true, decide_eq_true_eq]
  split_ifs <;> simp_all

/-! ## Helper lemmas: stable descending sort -/

theorem insertDesc_perm (key : α → ℚ) (x : α) (l : List α) :
    List.Perm (insertDesc key x l) (x :: l) := by
  induction l with
  | nil => exact List.Perm.refl _
  | cons y ys ih =>
      unfold insertDesc
      split
      · exact List.Perm.refl _
      · exact ((ih.cons y).trans (List.Perm.swap x y ys))

theorem sortDesc_perm (key : α → ℚ) (l : List α) : List.Perm (sortDesc key l) l := by
  induction l with
  | nil => exact List.Perm.refl _
  | cons x xs ih =>
      unfold sortDesc
      exact (insertDesc_perm key x (sortDesc key xs)).trans (ih.cons x)

theorem mem_sortDesc (key : α → ℚ) (l : List α) (a : α) :
    a ∈ sortDesc key l ↔ a ∈ l :=
  (sortDesc_perm key l).mem_iff

theorem pairwise_insertDesc (key : α → ℚ) (x : α) (l : List α)
    (h : l.Pairwise (fun a b => key b ≤ key a)) :
    (insertDesc key x l).Pairwise (fun a b => key b ≤ key a) := by
  induction l with
  | nil => simp [insertDesc]
  | cons y ys ih =>
      rw [List.pairwise_cons] at h
      unfold insertDesc
      split
      · rename_i hle
        refine List.Pairwise.cons ?_ (by rw [List.pairwise_cons]; exact h)
        intro b hb
        rcases List.mem_cons.mp hb with hb | hb
        · rw [hb]; exact hle
        · exact le_trans (h.1 b hb) hle
      · rename_i hgt
        refine List.Pairwise.cons ?_ (ih h.2)
        intro b hb
        rcases List.mem_cons.mp ((insertDesc_perm key x ys).mem_iff.mp hb) with hb | hb
        · rw [hb]; exact le_of_lt (lt_of_not_le hgt)
        · exact h.1 b hb

theorem sortDesc_pairwise (key : α → ℚ) (l : List α) :
    (sortDesc key l).Pairwise (fun a b => key b ≤ key a) := by
  induction l with
  | nil => simp [sortDesc]
  | cons x xs ih => exact pairwise_insertDesc key x _ ih

theorem argsortDesc_pairwise (v : List ℚ) :
    (argsortDesc v).Pairwise (fun i j => v.getD j 0 ≤ v.getD i 0) :=
  sortDesc_pairwise _ _

/-! ## Helper lemmas: list folds -/

theorem foldl_preserve {β : Type _} (P : List ℚ → Prop) (step : List ℚ → β → List ℚ)
    (hstep : ∀ sc b, P sc → P (step sc b)) :
    ∀ (l : List β) (sc : List ℚ), P sc → P (l.foldl step sc) := by
  intro l
  induction l with
  | nil => intro sc h; exact h
  | cons b bs ih => intro sc h; exact ih _ (hstep sc b h)

theorem getD_mem_or_zero (sc : List ℚ) (i : ℕ) : sc.getD i 0 ∈ sc ∨ sc.getD i 0 = 0 := by
  rw [List.getD_eq_getElem?_getD]
  cases h : sc[i]? with
  | none => right; rfl
  | some v =>
      left
      obtain ⟨hlt, hv⟩ := List.getElem?_eq_some_iff.mp h
      rw [Option.getD_some, ← hv]
      exact List.getElem_mem hlt

theorem minFold_spec :
    ∀ (l : List ℚ) (acc : Option ℚ) (r : ℚ),
      l.foldl (fun a x => match a with | none => some x | some m => some (pymin m x)) acc
          = some r →
        (∀ x ∈ l, r ≤ x) ∧ (∀ a, acc = some a → r ≤ a) := by
  intro l
  induction l with
  | nil =>
      intro acc r hr
      refine ⟨fun x hx => absurd hx (List.not_mem_nil x), fun a ha => ?_⟩
      rw [ha] at hr
      simp only [List.foldl_nil, Option.some.injEq] at hr
      rw [hr]
  | cons y ys ih =>
      intro acc r hr
      rw [List.foldl_cons] at hr
      obtain ⟨hys, hacc⟩ := ih _ r hr
      constructor
      · intro x hx
        rcases List.mem_cons.mp hx with hx | hx
        · subst hx
          cases acc with
          | none => exact hacc x rfl
          | some m => exact le_trans (hacc (pymin m x) rfl) (pymin_le_right m x)
        · exact hys x hx
      · intro a ha
        subst ha
        exact le_trans (hacc (pymin a y) rfl) (pymin_le_left a y)

theorem maxFold_spec :
    ∀ (l : List ℚ) (acc : Option ℚ) (r : ℚ),
      l.foldl (fun a x => match a with | none => some x | some m => some (pymax m x)) acc
          = some r →
        (∀ x ∈ l, x ≤ r) ∧ (∀ a, acc = some a → a ≤ r) := by
  intro l
  induction l with
  | nil =>
      intro acc r hr
      refine ⟨fun x hx => absurd hx (List.not_mem_nil x), fun a ha => ?_⟩
      rw [ha] at hr
      simp only [List.foldl_nil, Option.some.injEq] at hr
      rw [hr]
  | cons y ys ih =>
      intro acc r hr
      rw [List.foldl_cons] at hr
      obtain ⟨hys, hacc⟩ := ih _ r hr
      constructor
      · intro x hx
        rcases List.mem_cons.mp hx with hx | hx
        · subst hx
          cases acc with
          | none => exact hacc x rfl
          | some m => exact le_trans (le_pymax_right m x) (hacc (pymax m x) rfl)
        · exact hys x hx
      · intro a ha
        subst ha
        exact le_trans (le_pymax_left a y) (hacc (pymax a y) rfl)

theorem listMinQ_le (l : List ℚ) (m : ℚ) (hm : listMinQ l = some m) :
    ∀ x ∈ l, m ≤ x :=
  (minFold_spec l none m hm).1

theorem le_listMaxQ (l : List ℚ) (mx : ℚ) (hm : listMaxQ l = some mx) :
    ∀ x ∈ l, x ≤ mx :=
  (maxFold_spec l none mx hm).1

/-! ## Claim C1: score bounds of `parse_user_skills` -/

theorem applyPhraseSemantic_le (scores simRow : List ℚ) (h : ∀ x ∈ scores, x ≤ 7) :
    ∀ x ∈ applyPhraseSemantic scores simRow, x ≤ 7 := by
  unfold applyPhraseSemantic
  revert h
  refine foldl_preserve (fun sc => ∀ x ∈ sc, x ≤ 7) _ ?_ _ scores
  intro sc p hp x hx
  rcases List.mem_or_eq_of_mem_set hx with h1 | h1
  · exact hp x h1
  · rw [h1]; exact pymin_le_left _ _

theorem parse_user_skills_semantic_le (nDims : ℕ) (simRows : List (List ℚ)) :
    ∀ x ∈ parse_user_skills_semantic nDims simRows, x ≤ 7 := by
  unfold parse_user_skills_semantic
  refine foldl_preserve (fun sc => ∀ x ∈ sc, x ≤ 7) _ ?_ _ _ ?_
  · intro sc row hp
    exact applyPhraseSemantic_le sc row hp
  · intro x hx
    rw [List.eq_of_mem_replicate hx]
    norm_num

theorem applySkillFallback_bounds (canon : List (String × String)) (cols : List String)
    (scores : List ℚ) (skill : String) (h : ∀ x ∈ scores, 0 ≤ x ∧ x ≤ 7) :
    ∀ x ∈ applySkillFallback canon cols scores skill, 0 ≤ x ∧ x ≤ 7 := by
  unfold applySkillFallback
  revert h
  refine foldl_preserve (fun sc => ∀ x ∈ sc, 0 ≤ x ∧ x ≤ 7) _ ?_ _ scores
  intro sc p hp x hx
  rcases hfind : cols.findIdx? (fun c => c = p.1) with _ | i <;>
    rw [hfind] at hx <;> dsimp only at hx
  · exact hp x hx
  · by_cases hc : fallbackCond skill p.2 = true
    · rw [if_pos hc] at hx
      rcases List.mem_or_eq_of_mem_set hx with h1 | h1
      · exact hp x h1
      · subst h1
        have hge : (0:ℚ) ≤ sc.getD i 0 := by
          rcases getD_mem_or_zero sc i with hm | hm
          · exact (hp _ hm).1
          · rw [hm]
        constructor
        · exact le_pymin _ _ _ (by norm_num) (by linarith)
        · exact pymin_le_left _ _
    · rw [if_neg hc] at hx
      exact hp x hx

theorem parse_user_skills_fallback_bounds (canon : List (String × String))
    (cols : List String) (explicit : List String) :
    ∀ x ∈ parse_user_skills_fallback canon cols explicit, 0 ≤ x ∧ x ≤ 7 := by
  unfold parse_user_skills_fallback
  refine foldl_preserve (fun sc => ∀ x ∈ sc, 0 ≤ x ∧ x ≤ 7) _ ?_ _ _ ?_
  · intro sc skill hp
    exact applySkillFallback_bounds canon cols sc skill hp
  · intro x hx
    rw [List.eq_of_mem_replicate hx]
    norm_num

/-- Claim C1 (amended): every dimension score returned by
`parse_user_skills` is at most 7 in both modes; in keyword-fallback mode
scores are additionally never negative. (In semantic mode a negative cosine
similarity can drive a score below 0, see the counterexample.) -/
theorem parse_user_skills_score_bounds (cols : List String)
    (canon : List (String × String)) (explicit : List String)
    (rows : List (List ℚ)) (x : ℚ) :
    (x ∈ parse_user_skills cols canon (some rows) explicit → x ≤ 7)
    ∧ (x ∈ parse_user_skills cols canon none explicit → 0 ≤ x ∧ x ≤ 7) := by
  constructor
  · intro hx
    unfold parse_user_skills at hx
    by_cases hc : cols.isEmpty
    · rw [if_pos hc] at hx; cases hx
    · rw [if_neg hc] at hx
      exact parse_user_skills_semantic_le cols.length rows x hx
  · intro hx
    unfold parse_user_skills at hx
    by_cases hc : cols.isEmpty
    · rw [if_pos hc] at hx; cases hx
    · rw [if_neg hc] at hx
      exact parse_user_skills_fallback_bounds canon cols explicit x hx

/-- Witness for C1's amended claim at a concrete input: in fallback mode,
the single skill dimension scores 2.5 after one matching keyword. -/
theorem parse_user_skills_score_bounds_witness :
    (0:ℚ) ≤ 5/2 ∧ (5/2:ℚ) ≤ 7 :=
  (parse_user_skills_score_bounds ["skill_programming"]
      [("skill_programming", "python programming and code")] ["python"] [] (5/2)).2
    (by
      simp [parse_user_skills, parse_user_skills_fallback, applySkillFallback, fallbackCond,
        strHasSub, listHasSub, listStartsWith, pySplitWS, splitOnSpaces, pymin]
      norm_num)

/-- Claim C1 counterexample: the claim as stated ("never negative ... in
semantic mode") is false. A phrase whose cosine similarity to the only
skill dimension is -1 yields the dimension score
`min(7, 0 + (-1) * 1.0 * 7) = -7 < 0`. -/
theorem parse_user_skills_negative_counterexample :
    parse_user_skills ["skill_math"] [] (some [[-1]]) ["anything"] = [-7]
    ∧ ((-7:ℚ) < 0) := by
  constructor
  · simp [parse_user_skills, parse_user_skills_semantic, applyPhraseSemantic, argsortDesc,
      sortDesc, insertDesc, rankWeight, pymin]
  · norm_num

/-! ## Claim C3: risk categorizer behavior -/

theorem risk_label_rank_le_three (l : String) : risk_label_rank l ≤ 3 := by
  unfold risk_label_rank
  split_ifs <;> norm_num

theorem categorise_risk_low (q : ℚ) (h0 : 0 ≤ q) (h1 : q < 7/20) :
    categorise_risk default_risk_thresholds (some q) = "Low" := by
  rw [categorise_risk_default_eq, if_pos ⟨h0, h1⟩]

theorem categorise_risk_medium (q : ℚ) (h0 : 7/20 ≤ q) (h1 : q < 11/20) :
    categorise_risk default_risk_thresholds (some q) = "Medium" := by
  rw [categorise_risk_default_eq, if_neg (by rintro ⟨_, h⟩; linarith), if_pos ⟨h0, h1⟩]

theorem categorise_risk_high (q : ℚ) (h0 : 11/20 ≤ q) (h1 : q < 18/25) :
    categorise_risk default_risk_thresholds (some q) = "High" := by
  rw [categorise_risk_default_eq, if_neg (by rintro ⟨_, h⟩; linarith),
    if_neg (by rintro ⟨_, h⟩; linarith), if_pos ⟨h0, h1⟩]

theorem categorise_risk_veryhigh (q : ℚ) (h0 : 18/25 ≤ q) :
    categorise_risk default_risk_thresholds (some q) = "Very High" := by
  rw [categorise_risk_default_eq, if_neg (by rintro ⟨_, h⟩; linarith),
    if_neg (by rintro ⟨_, h⟩; linarith), if_neg (by rintro ⟨_, h⟩; linarith), ite_self]

/-- Claim C3 (amended): on [0,1] the risk label is monotone non-decreasing
in the score, `categorise_risk 2 = "Very High"`, any score matching no
threshold interval (NaN included) maps to the highest category, and every
score at or above 1 maps to "Very High". (The claimed
`categorise_risk (-1) = categorise_risk 0` fails: a negative score falls
through every interval and lands on "Very High", not "Low" — see the
counterexample.) -/
theorem categorise_risk_spec (x y : ℚ) (s : PyFloat)
    (hx0 : 0 ≤ x) (hy1 : y ≤ 1) (hxy : x ≤ y) :
    risk_label_rank (categorise_risk default_risk_thresholds (some x))
      ≤ risk_label_rank (categorise_risk default_risk_thresholds (some y))
    ∧ categorise_risk default_risk_thresholds (some 2) = "Very High"
    ∧ (risk_first_match default_risk_thresholds s = none →
        categorise_risk default_risk_thresholds s = "Very High")
    ∧ categorise_risk default_risk_thresholds none = "Very High"
    ∧ (∀ q : ℚ, 1 ≤ q → categorise_risk default_risk_thresholds (some q) = "Very High") := by
  have hy0 : 0 ≤ y := le_trans hx0 hxy
  refine ⟨?_, ?_, ?_, ?_, ?_⟩
  · rcases lt_or_le y (7/20) with hy | hy
    · rw [categorise_risk_low x hx0 (lt_of_le_of_lt hxy hy), categorise_risk_low y hy0 hy]
    · rcases lt_or_le y (11/20) with hy2 | hy2
      · rw [categorise_risk_medium y hy hy2]
        rcases lt_or_le x (7/20) with hx | hx
        · rw [categorise_risk_low x hx0 hx]
          decide
        · rw [categorise_risk_medium x hx (lt_of_le_of_lt hxy hy2)]
      · rcases lt_or_le y (18/25) with hy3 | hy3
        · rw [categorise_risk_high y hy2 hy3]
          rcases lt_or_le x (7/20) with hx | hx
          · rw [categorise_risk_low x hx0 hx]
            decide
          · rcases lt_or_le x (11/20) with hx2 | hx2
            · rw [categorise_risk_medium x hx hx2]
              decide
            · rw [categorise_risk_high x hx2 (lt_of_le_of_lt hxy hy3)]
        · rw [categorise_risk_veryhigh y hy3]
          have h3 := risk_label_rank_le_three
            (categorise_risk default_risk_thresholds (some x))
          simpa [risk_label_rank] using h3
  · exact categorise_risk_veryhigh 2 (by norm_num)
  · intro h
    unfold categorise_risk
    rw [h]
    rfl
  · rfl
  · intro q hq
    exact categorise_risk_veryhigh q (by linarith)

/-- Witness for C3's amended claim at concrete scores 0 and 1. -/
theorem categorise_risk_spec_witness :
    risk_label_rank (categorise_risk default_risk_thresholds (some 0))
      ≤ risk_label_rank (categorise_risk default_risk_thresholds (some 1))
    ∧ categorise_risk default_risk_thresholds none = "Very High" :=
  ⟨(categorise_risk_spec 0 1 none (by norm_num) (by norm_num) (by norm_num)).1,
   (categorise_risk_spec 0 1 none (by norm_num) (by norm_num) (by norm_num)).2.2.2.1⟩

/-- Claim C3 counterexample: `categorise_risk (-1)` is "Very High" (the
default of the fall-through), while `categorise_risk 0` is "Low", so the
claimed equality at the lower extreme is false. -/
theorem categorise_risk_neg_counterexample :
    categorise_risk default_risk_thresholds (some (-1)) = "Very High"
    ∧ categorise_risk default_risk_thresholds (some 0) = "Low"
    ∧ ("Very High" : String) ≠ "Low" := by
  refine ⟨?_, ?_, by decide⟩
  · norm_num [categorise_risk, risk_first_match, default_risk_thresholds, oleB, oltB]
  · norm_num [categorise_risk, risk_first_match, default_risk_thresholds, oleB, oltB]

/-! ## Claim C2: match percentage normalization -/

theorem pyRound_one_55 : pyRound 1 (55:ℚ) = 55 := by
  have := pyRound_intCast 1 550
  norm_num at this
  simpa using this

theorem pyRound_one_98 : pyRound 1 (98:ℚ) = 98 := by
  have := pyRound_intCast 1 980
  norm_num at this
  simpa using this

theorem filterMap_id_map_some (l : List ℚ) : (l.map some).filterMap id = l := by
  simp

/-- Claim C2 (amended): for a group of finite final scores with minimum `m`
and maximum `M`, when `m < M` the match percentage is the min-max
normalization of the scores into [55, 98] (the worst maps to 55%, the best
to 98%, linearly interpolated); when all scores are equal, every result
gets exactly 55% — not the claimed 70%: the `score_range` is forced to 1.0
in that case, so the 70% branch of the source is unreachable. -/
theorem format_match_pcts_spec (scores : List ℚ) (m M : ℚ)
    (hmin : listMinQ scores = some m) (hmax : listMaxQ scores = some M) :
    (m < M →
      format_match_pcts (scores.map some)
          = scores.map (fun s => pyRound 1 (55 + (s - m) / (M - m) * 43))
        ∧ (∀ s : ℚ, s = m → pyRound 1 (55 + (s - m) / (M - m) * 43) = 55)
        ∧ (∀ s : ℚ, s = M → pyRound 1 (55 + (s - m) / (M - m) * 43) = 98))
    ∧ (m = M → format_match_pcts (scores.map some) = List.replicate scores.length 55) := by
  have hsetup : scoreRangeSetup (scores.map some)
      = (m, if m < M then M - m else 1) := by
    simp only [scoreRangeSetup, filterMap_id_map_some, hmin, hmax, safe_float,
      Option.getD_some]
  constructor
  · intro hlt
    have hpos : (0:ℚ) < M - m := sub_pos.mpr hlt
    refine ⟨?_, ?_, ?_⟩
    · unfold format_match_pcts
      rw [hsetup]
      simp only [if_pos hlt, List.map_map]
      refine List.map_congr_left ?_
      intro s _
      simp only [Function.comp_apply, matchPct, safe_float, Option.getD_some, if_pos hpos]
    · intro s hs
      subst hs
      rw [sub_self, zero_div, zero_mul, add_zero]
      exact pyRound_one_55
    · intro s hs
      subst hs
      rw [div_self (ne_of_gt hpos)]
      norm_num [pyRound_one_98]
  · intro heq
    subst heq
    have hall : ∀ s ∈ scores, s = m := by
      intro s hs
      exact le_antisymm (le_listMaxQ scores m hmax s hs) (listMinQ_le scores m hmin s hs)
    rw [List.eq_replicate_iff]
    constructor
    · unfold format_match_pcts
      simp
    · intro b hb
      unfold format_match_pcts at hb
      rw [hsetup] at hb
      simp only [lt_self_iff_false, if_neg, if_false, List.map_map, List.mem_map] at hb
      obtain ⟨s, hs, hb⟩ := hb
      rw [hall s hs] at hb
      rw [← hb]
      simp only [Function.comp_apply, matchPct, safe_float, Option.getD_some]
      rw [if_pos (by norm_num : (0:ℚ) < 1)]
      rw [sub_self, zero_div, zero_mul, add_zero]
      exact pyRound_one_55

/-- Witness for C2's amended claim on the concrete group [1, 3]. -/
theorem format_match_pcts_spec_witness :
    format_match_pcts ([1, 3].map some)
        = [1, 3].map (fun s => pyRound 1 (55 + (s - 1) / (3 - 1) * 43)) :=
  ((format_match_pcts_spec [1, 3] 1 3
      (by norm_num [listMinQ, pymin])
      (by norm_num [listMaxQ, pymax])).1 (by norm_num)).1

/-- Claim C2 counterexample: a group whose final scores are all equal gets
match percentage 55.0 for every row, not the claimed 70%. -/
theorem format_match_pcts_counterexample :
    format_match_pcts [some (1/2), some (1/2)] = [55, 55] ∧ ((55:ℚ) ≠ 70) := by
  constructor
  · norm_num [format_match_pcts, scoreRangeSetup, listMinQ, listMaxQ, pymin, pymax,
      safe_float, matchPct, pyRound_one_55, List.filterMap_cons, List.filterMap_nil]
  · norm_num

/-! ## Claim C4: gap analyzer on a perfectly matching user vector -/

theorem pymax_zero_zero : pymax 0 (0:ℚ) = 0 := by norm_num [pymax]

theorem gap_entry_self (cols : List String) (occRow : List PyFloat) (i : ℕ) :
    (gap_entry cols occRow occRow i).gap = 0
    ∧ (gap_entry cols occRow occRow i).weightedGap = 0 := by
  unfold gap_entry
  have hrc : safe_float (occRow.getD i none) 0 = reqValue (occRow.getD i none) := rfl
  constructor
  · simp only [hrc, sub_self, pymax_zero_zero]
    exact pyRound_zero 2
  · simp only [hrc, sub_self, pymax_zero_zero, zero_mul]
    exact pyRound_zero 4

theorem gap_details_self (cols : List String) (occRow : List PyFloat) :
    ∀ g ∈ gap_details cols occRow occRow, g.gap = 0 ∧ g.weightedGap = 0 := by
  intro g hg
  unfold gap_details at hg
  obtain ⟨i, _, hgi⟩ := List.mem_map.mp hg
  rw [← hgi]
  exact gap_entry_self cols occRow i

/-- Claim C4 (confirmed): applying `analyse_skills_gap` to a user vector
exactly equal to the occupation's requirement vector yields
`alignment_pct = 100.0` and an empty `top_gaps` list, for any occupation
with at least one nonzero skill requirement. -/
theorem analyse_skills_gap_self (cols : List String) (occRow : List PyFloat)
    (occName : String) (nGaps nStrong : ℕ)
    (hnz : ∃ i, i < cols.length ∧ reqValue (occRow.getD i none) ≠ 0) :
    (analyse_skills_gap cols occRow occRow occName nGaps nStrong).alignmentPct = 100
    ∧ (analyse_skills_gap cols occRow occRow occName nGaps nStrong).topGaps = [] := by
  have hmem : ∀ g ∈ sortDesc (fun g => g.weightedGap) (gap_details cols occRow occRow),
      g.gap = 0 ∧ g.weightedGap = 0 := by
    intro g hg
    exact gap_details_self cols occRow g
      ((mem_sortDesc (fun g => g.weightedGap) (gap_details cols occRow occRow) g).mp hg)
  have hfilter : (sortDesc (fun g => g.weightedGap)
      (gap_details cols occRow occRow)).filter (fun g => decide (0 < g.gap)) = [] := by
    rw [List.filter_eq_nil_iff]
    intro g hg
    rw [(hmem g hg).1]
    norm_num
  have hsum : ((sortDesc (fun g => g.weightedGap)
      (gap_details cols occRow occRow)).map (fun g => g.weightedGap)).sum = 0 := by
    apply List.sum_eq_zero
    intro x hx
    obtain ⟨g, hg, hgx⟩ := List.mem_map.mp hx
    rw [← hgx]
    exact (hmem g hg).2
  constructor
  · show pymax 0 (pymin 100 (pyRound 1
      ((1 - ((sortDesc (fun g => g.weightedGap) (gap_details cols occRow occRow)).map
          (fun g => g.weightedGap)).sum / pymax (max_gap cols occRow) (1/1000000)) * 100))) = 100
    rw [hsum, zero_div, sub_zero, one_mul, pyRound_hundred]
    norm_num [pymin, pymax]
  · show ((sortDesc (fun g => g.weightedGap) (gap_details cols occRow occRow)).filter
        (fun g => decide (0 < g.gap))).take nGaps = []
    rw [hfilter]
    exact List.take_nil

/-- Witness for C4 at a concrete one-dimensional occupation. -/
theorem analyse_skills_gap_self_witness :
    (analyse_skills_gap ["skill_math"] [some 3] [some 3] "Analyst" 8 5).alignmentPct = 100
    ∧ (analyse_skills_gap ["skill_math"] [some 3] [some 3] "Analyst" 8 5).topGaps = [] :=
  analyse_skills_gap_self ["skill_math"] [some 3] "Analyst" 8 5
    ⟨0, by norm_num, by norm_num [reqValue]⟩

/-! ## Claim C5: learned re-ranking blend and its exception fallback -/

theorem getD_zipWith (f : ℚ → ℚ → ℚ) (l1 l2 : List ℚ) (i : ℕ)
    (h1 : i < l1.length) (h2 : i < l2.length) :
    (l1.zipWith f l2).getD i 0 = f (l1.getD i 0) (l2.getD i 0) := by
  have hlen : i < (l1.zipWith f l2).length := by
    rw [List.length_zipWith]
    omega
  rw [List.getD_eq_getElem _ _ hlen, List.getD_eq_getElem _ _ h1, List.getD_eq_getElem _ _ h2]
  exact List.getElem_zipWith

/-- Claim C5 (confirmed): when both the ranker and the scaler are loaded
and the probability computation succeeds, the final score is
`0.6 * (cosine + goal bonus) + 0.4 * probability`; when the computation
raises, the un-blended combined score is kept (the function is total:
the request never fails because of the blend). -/
theorem final_scores_spec (cosineSims goalBoosts ps : List ℚ) (useGoal : Bool) (i : ℕ)
    (h1 : i < cosineSims.length) (h2 : i < goalBoosts.length) (h3 : i < ps.length) :
    (final_scores cosineSims goalBoosts true true true (.ok ps)).getD i 0
        = 3/5 * (cosineSims.getD i 0 + goalBoosts.getD i 0) + 2/5 * ps.getD i 0
    ∧ final_scores cosineSims goalBoosts useGoal true true (.error ())
        = combined_scores cosineSims goalBoosts useGoal := by
  constructor
  · unfold final_scores apply_ranker_blend combined_scores
    simp only [if_pos rfl, Bool.and_self, if_true]
    rw [getD_zipWith _ _ _ i (by rw [List.length_zipWith]; omega) h3,
      getD_zipWith _ _ _ i h1 h2]
  · rfl

/-- Witness for C5 at concrete scores: cosine [1/2], bonus [1/20],
probability [3/4]. -/
theorem final_scores_spec_witness :
    (final_scores [1/2] [1/20] true true true (.ok [3/4])).getD 0 0
        = 3/5 * ((1/2:ℚ) + 1/20) + 2/5 * (3/4:ℚ)
    ∧ final_scores [1/2] [1/20] true true true (.error ())
        = combined_scores [1/2] [1/20] true := by
  have h := final_scores_spec [1/2] [1/20] [3/4] true 0
    (by norm_num) (by norm_num) (by norm_num)
  refine ⟨?_, h.2⟩
  rw [h.1]
  norm_num

/-! ## Claim C6: learning path stages and gap distribution -/

theorem slice_mod_iff (a j L : ℕ) (hj : j < L) :
    (j ≤ a ∧ (a - j) % L = 0) ↔ a % L = j := by
  constructor
  · rintro ⟨hle, hmod⟩
    obtain ⟨k, hk⟩ := Nat.dvd_of_mod_eq_zero hmod
    have ha : a = j + L * k := by omega
    rw [ha, Nat.add_mul_mod_self_left]
    exact Nat.mod_eq_of_lt hj
  · intro h
    have hdm := Nat.div_add_mod a L
    constructor
    · omega
    · have hsub : a - j = L * (a / L) := by omega
      rw [hsub, Nat.mul_mod_right]

theorem sliceStride_eq_filter_mod {γ : Type _} (l : List γ) (j L : ℕ) (hj : j < L) :
    sliceStride l j L = (l.enum.filter (fun p => decide (p.1 % L = j))).map (fun p => p.2) := by
  unfold sliceStride
  congr 1
  apply List.filter_congr
  intro p _
  rw [← Bool.decide_and, decide_eq_decide]
  exact slice_mod_iff p.1 j L hj

/-- Claim C6 (amended): `generate_learning_path` builds one stage per
applicable course level capped at the first 3 (stage `j+1` carries level
`levels[j]`), and distributes `top_gaps` so that gap index `i` is assigned
to the 0-based stage `i mod L` where `L` is the length of the FULL
configured level list — not `i mod (number of stages)`: when `L > 3` the
gaps whose index is `≥ 3 mod L` are assigned to no stage (see the
counterexample). For `L ≤ 3` the two coincide, as the claim states. -/
theorem generate_learning_path_round_robin (eduMap : List (String × List String))
    (search : String → ℕ → Option String → List CourseResult)
    (gaps : List GapEntry) (ut : String) (cpg : ℕ) (j : ℕ)
    (hj : j < (lookupEduLevels eduMap ut).length) :
    (generate_learning_path eduMap search gaps ut cpg).stages.map
          (fun st => (st.stage, st.level))
        = ((lookupEduLevels eduMap ut).take 3).enum.map (fun p => (p.1 + 1, p.2))
    ∧ stageGapsOf (lookupEduLevels eduMap ut) gaps j
        = (gaps.enum.filter
            (fun p => decide (p.1 % (lookupEduLevels eduMap ut).length = j))).map
            (fun p => p.2) := by
  constructor
  · unfold generate_learning_path buildStage
    simp [List.map_map]
  · unfold stageGapsOf
    exact sliceStride_eq_filter_mod gaps j _ hj

/-- Witness for C6's amended claim: the default level list (unknown user
type) has 2 levels; stage 0 receives the gaps with even index. -/
theorem generate_learning_path_round_robin_witness :
    (generate_learning_path [] (fun _ _ _ => []) [⟨"", "g0", 0, 0, 0, 0, 0⟩]
          "graduate" 2).stages.map (fun st => (st.stage, st.level))
        = ((lookupEduLevels [] "graduate").take 3).enum.map (fun p => (p.1 + 1, p.2))
    ∧ stageGapsOf (lookupEduLevels [] "graduate") [⟨"", "g0", 0, 0, 0, 0, 0⟩] 0
        = (([⟨"", "g0", 0, 0, 0, 0, 0⟩] : List GapEntry).enum.filter
            (fun p => decide (p.1 % (lookupEduLevels [] "graduate").length = 0))).map
            (fun p => p.2) :=
  generate_learning_path_round_robin [] (fun _ _ _ => [])
    [⟨"", "g0", 0, 0, 0, 0, 0⟩] "graduate" 2 0 (by decide)

/-- Claim C6 counterexample: with a configured level list of 4 entries the
engine builds only 3 stages, yet distributes gaps modulo 4: gap index 3
(claimed to go to stage `3 mod 3 = 0`) is assigned to no stage at all — in
particular not to stage 0. -/
theorem generate_learning_path_counterexample :
    lookupEduLevels [("cbc", ["A", "B", "C", "D"])] "cbc" = ["A", "B", "C", "D"]
    ∧ (generate_learning_path [("cbc", ["A", "B", "C", "D"])] (fun _ _ _ => [])
        [⟨"", "g0", 0, 0, 0, 0, 0⟩, ⟨"", "g1", 0, 0, 0, 0, 0⟩, ⟨"", "g2", 0, 0, 0, 0, 0⟩,
         ⟨"", "g3", 0, 0, 0, 0, 0⟩, ⟨"", "g4", 0, 0, 0, 0, 0⟩, ⟨"", "g5", 0, 0, 0, 0, 0⟩]
        "cbc" 2).stages.length = 3
    ∧ (⟨"", "g3", 0, 0, 0, 0, 0⟩ : GapEntry) ∉
        stageGapsOf ["A", "B", "C", "D"]
          [⟨"", "g0", 0, 0, 0, 0, 0⟩, ⟨"", "g1", 0, 0, 0, 0, 0⟩, ⟨"", "g2", 0, 0, 0, 0, 0⟩,
           ⟨"", "g3", 0, 0, 0, 0, 0⟩, ⟨"", "g4", 0, 0, 0, 0, 0⟩, ⟨"", "g5", 0, 0, 0, 0, 0⟩]
          (3 % 3)
    ∧ (⟨"", "g3", 0, 0, 0, 0, 0⟩ : GapEntry) ∉
        stageGapsOf ["A", "B", "C", "D"]
          [⟨"", "g0", 0, 0, 0, 0, 0⟩, ⟨"", "g1", 0, 0, 0, 0, 0⟩, ⟨"", "g2", 0, 0, 0, 0, 0⟩,
           ⟨"", "g3", 0, 0, 0, 0, 0⟩, ⟨"", "g4", 0, 0, 0, 0, 0⟩, ⟨"", "g5", 0, 0, 0, 0, 0⟩]
          1
    ∧ (⟨"", "g3", 0, 0, 0, 0, 0⟩ : GapEntry) ∉
        stageGapsOf ["A", "B", "C", "D"]
          [⟨"", "g0", 0, 0, 0, 0, 0⟩, ⟨"", "g1", 0, 0, 0, 0, 0⟩, ⟨"", "g2", 0, 0, 0, 0, 0⟩,
           ⟨"", "g3", 0, 0, 0, 0, 0⟩, ⟨"", "g4", 0, 0, 0, 0, 0⟩, ⟨"", "g5", 0, 0, 0, 0, 0⟩]
          2 := by
  refine ⟨?_, ?_, ?_, ?_, ?_⟩
  · rfl
  · simp [generate_learning_path]
    decide
  · decide
  · decide
  · decide

/-! ## Claims C7 and C10: course search -/

/-- Claim C7 (confirmed): with all artifacts loaded, the returned list is
exactly the selected indices mapped to result rows, where the selection
(i) keeps only indices whose mask-zeroed similarity exceeds 0.01 — a
relevance floor applied even when fewer than `top_k` results exist,
(ii) is in descending order of masked similarity, (iii) has at most `top_k`
entries, and (iv) the masked similarity of an ineligible course is 0 while
an eligible course keeps its raw similarity at the same index. -/
theorem search_courses_for_skill_spec {A B : Type} (tf : A) (mat : B) (cs : List Course)
    (computeSims : A → B → String → List ℚ) (skillName : String) (topK : ℕ)
    (levelFilter : Option String) (minQuality : ℚ) (sims masked : List ℚ) (sel : List ℕ)
    (hsims : sims = computeSims tf mat (courseQuery skillName))
    (hmasked : masked = masked_sims sims (cs.map (eligible minQuality levelFilter)))
    (hsel : sel = select_top_idx masked topK) :
    search_courses_for_skill (some tf) (some mat) (some cs) computeSims skillName topK
        levelFilter minQuality
      = sel.map (mkCourseResult skillName cs masked)
    ∧ (∀ i ∈ sel, (1:ℚ)/100 < masked.getD i 0)
    ∧ sel.Pairwise (fun i j => masked.getD j 0 ≤ masked.getD i 0)
    ∧ sel.length ≤ topK
    ∧ (∀ i, i < sims.length → i < cs.length →
        masked.getD i 0 = if eligible minQuality levelFilter (cs.getD i default) = true
          then sims.getD i 0 else 0) := by
  subst hsims hmasked hsel
  refine ⟨rfl, ?_, ?_, ?_, ?_⟩
  · intro i hi
    have hi2 := List.mem_of_mem_take hi
    have := (List.mem_filter.mp hi2).2
    exact of_decide_eq_true this
  · exact ((argsortDesc_pairwise _).filter _).take
  · exact List.length_take_le _ _
  · intro i h1 h2
    have hlen : i < (masked_sims (computeSims tf mat (courseQuery skillName))
        (cs.map (eligible minQuality levelFilter))).length := by
      unfold masked_sims
      rw [List.length_zipWith, List.length_map]
      omega
    rw [List.getD_eq_getElem _ _ hlen]
    unfold masked_sims
    rw [List.getElem_zipWith, List.getElem_map,
      List.getD_eq_getElem _ _ h1, List.getD_eq_getElem _ _ h2]

/-- Witness for C7 on a one-course catalogue with similarity 1. -/
theorem search_courses_for_skill_spec_witness :
    search_courses_for_skill (some ()) (some ())
        (some [{ title := "Python for Data Science", platform := "Coursera",
                 stdLevel := some "Foundation", subject := "programming",
                 skillsCovered := "python", quality := some 1, durationHours := some 30,
                 isFree := false, url := "u" }])
        (fun _ _ _ => [1]) "python" 3 none 0
      = ([0] : List ℕ).map (mkCourseResult "python"
          [{ title := "Python for Data Science", platform := "Coursera",
             stdLevel := some "Foundation", subject := "programming",
             skillsCovered := "python", quality := some 1, durationHours := some 30,
             isFree := false, url := "u" }] [1])
    ∧ (∀ i ∈ ([0] : List ℕ), (1:ℚ)/100 < ([1] : List ℚ).getD i 0)
    ∧ ([0] : List ℕ).Pairwise
        (fun i j => ([1] : List ℚ).getD j 0 ≤ ([1] : List ℚ).getD i 0)
    ∧ ([0] : List ℕ).length ≤ 3 :=
  have h := search_courses_for_skill_spec () ()
    [{ title := "Python for Data Science", platform := "Coursera",
       stdLevel := some "Foundation", subject := "programming",
       skillsCovered := "python", quality := some 1, durationHours := some 30,
       isFree := false, url := "u" }]
    (fun _ _ _ => [1]) "python" 3 none 0 [1] [1] [0]
    rfl
    (by norm_num [masked_sims, eligible, safe_float])
    (by norm_num [select_top_idx, argsortDesc, sortDesc, insertDesc])
  ⟨h.1, h.2.1, h.2.2.1, h.2.2.2.1⟩

/-- Claim C10 (confirmed): `search_courses_for_skill` returns the empty
list, raising nothing, whenever the TF-IDF vectorizer, the course matrix or
the course catalogue is not loaded. -/
theorem search_courses_for_skill_not_loaded {A B : Type} (courseTfidf : Option A)
    (courseMatrix : Option B) (courses : Option (List Course))
    (computeSims : A → B → String → List ℚ) (skillName : String) (topK : ℕ)
    (levelFilter : Option String) (minQuality : ℚ)
    (h : courseTfidf = none ∨ courseMatrix = none ∨ courses = none) :
    search_courses_for_skill courseTfidf courseMatrix courses computeSims skillName topK
      levelFilter minQuality = [] := by
  cases courseTfidf <;> cases courseMatrix <;> cases courses <;>
    simp_all [search_courses_for_skill]

/-- Witness for C10: a missing vectorizer yields the empty result. -/
theorem search_courses_for_skill_not_loaded_witness :
    search_courses_for_skill (none : Option Unit) (some ()) (some ([] : List Course))
      (fun _ _ _ => []) "python" 3 none (3/10) = [] :=
  search_courses_for_skill_not_loaded none (some ()) (some []) (fun _ _ _ => [])
    "python" 3 none (3/10) (Or.inl rfl)

/-! ## Claim C9: unmatched recommendation titles are skipped silently -/

theorem career_details_indices_go (master : List String) :
    ∀ (recs : List String) (l : List ℕ),
      (∀ s ∈ recs, lookupOccupation master s ≠ .error ()) →
      recs.foldl
          (fun acc t =>
            match acc, lookupOccupation master t with
            | Except.error e, _ => Except.error e
            | Except.ok _, Except.error e => Except.error e
            | Except.ok l, Except.ok none => Except.ok l
            | Except.ok l, Except.ok (some i) => Except.ok (l ++ [i]))
          (Except.ok l : Except Unit (List ℕ))
        = Except.ok (l ++ recs.filterMap (matchedIdx master)) := by
  intro recs
  induction recs with
  | nil => intro l _; simp
  | cons t ts ih =>
      intro l h
      rw [List.foldl_cons, List.filterMap_cons]
      cases hlk : lookupOccupation master t with
      | error e =>
          cases e
          exact absurd hlk (h t (List.mem_cons_self t ts))
      | ok v =>
          cases v with
          | none =>
              have hmi : matchedIdx master t = none := by
                unfold matchedIdx
                rw [hlk]
              rw [hmi]
              dsimp only
              exact ih l (fun s hs => h s (List.mem_cons_of_mem t hs))
          | some i =>
              have hmi : matchedIdx master t = some i := by
                unfold matchedIdx
                rw [hlk]
              rw [hmi]
              dsimp only
              have := ih (l ++ [i]) (fun s hs => h s (List.mem_cons_of_mem t hs))
              rw [this]
              simp

theorem career_details_indices_ok (master recs : List String)
    (h : ∀ s ∈ recs, lookupOccupation master s ≠ .error ()) :
    career_details_indices master recs = .ok (recs.filterMap (matchedIdx master)) := by
  unfold career_details_indices
  have := career_details_indices_go master recs [] h
  simpa using this

theorem filterMap_length_lt {γ δ : Type _} (f : γ → Option δ) :
    ∀ (recs : List γ) (t : γ), t ∈ recs → f t = none →
      (recs.filterMap f).length < recs.length := by
  intro recs
  induction recs with
  | nil => intro t ht; cases ht
  | cons s ss ih =>
      intro t ht hf
      rw [List.filterMap_cons]
      rcases List.mem_cons.mp ht with h1 | h1
      · subst h1
        rw [hf]
        have := List.length_filterMap_le f ss
        simp only [List.length_cons]
        omega
      · cases hfs : f s
        · have := ih t h1 hf
          dsimp only
          simp only [List.length_cons]
          omega
        · have := ih t h1 hf
          dsimp only
          simp only [List.length_cons]
          omega

/-- Claim C9 (confirmed): when every recommendation title's lookup runs
without raising and some title `t` matches no occupation (neither exactly
nor by first-word containment, i.e. the lookup returns `ok none`), the
`career_details` loop completes normally, skips `t`, and produces strictly
fewer entries than there are recommendations. -/
theorem run_full_pipeline_skips_unmatched (master recs : List String) (t : String)
    (ht : t ∈ recs) (hnone : lookupOccupation master t = .ok none)
    (hok : ∀ s ∈ recs, lookupOccupation master s ≠ .error ()) :
    career_details_indices master recs = .ok (recs.filterMap (matchedIdx master))
    ∧ (recs.filterMap (matchedIdx master)).length < recs.length := by
  refine ⟨career_details_indices_ok master recs hok, ?_⟩
  apply filterMap_length_lt (matchedIdx master) recs t ht
  unfold matchedIdx
  rw [hnone]

/-- Witness for C9: "Quantum Basketweaver" matches nothing in a one-entry
master catalogue and is skipped, so only one detail entry is built. -/
theorem run_full_pipeline_skips_unmatched_witness :
    career_details_indices ["Software Developers"]
        ["Software Developers", "Quantum Basketweaver"]
      = .ok ((["Software Developers", "Quantum Basketweaver"].filterMap
          (matchedIdx ["Software Developers"])))
    ∧ ((["Software Developers", "Quantum Basketweaver"].filterMap
        (matchedIdx ["Software Developers"])).length < 2) :=
  run_full_pipeline_skips_unmatched ["Software Developers"]
    ["Software Developers", "Quantum Basketweaver"] "Quantum Basketweaver"
    (by decide) rfl
    (by
      intro s hs
      rcases List.mem_cons.mp hs with h | h
      · subst h
        exact fun hc => Except.noConfusion hc
      · rcases List.mem_cons.mp h with h2 | h2
        · subst h2
          exact fun hc => Except.noConfusion hc
        · cases h2)

/-! ## Claim C8: the sanitised pipeline output has no non-finite float -/

theorem allFiniteB_sanitise : ∀ v : PyVal, allFiniteB (sanitise v) = true := by
  intro v
  induction v using sanitise.induct with
  | case1 l ih =>
      simp only [sanitise, allFiniteB, List.all_eq_true]
      intro x hx
      obtain ⟨y, hy, hyx⟩ := List.mem_map.mp x.2
      rw [← hyx]
      exact ih y
  | case2 l ih =>
      simp only [sanitise, allFiniteB, List.all_eq_true]
      intro x hx
      obtain ⟨y, hy, hyx⟩ := List.mem_map.mp x.2
      rw [← hyx]
      exact ih y
  | case3 q => simp [sanitise, allFiniteB]
  | case4 z => simp [sanitise, allFiniteB]
  | case5 s => simp [sanitise, allFiniteB]
  | case6 b => simp [sanitise, allFiniteB]
  | case7 => simp [sanitise, allFiniteB]

/-- Claim C8 (confirmed): the value returned by `run_full_pipeline` — the
`_sanitise` image of the assembled result — contains no non-finite float
anywhere in its nested structure, and `_safe_float` replaces a non-finite
catalogue value by its per-field default before use. -/
theorem run_full_pipeline_output_finite :
    (∀ result : PyVal, allFiniteB (run_full_pipeline_output result) = true)
    ∧ (∀ dflt : ℚ, safe_float none dflt = dflt) :=
  ⟨fun r => allFiniteB_sanitise r, fun _ => rfl⟩

end CareerEngine
